import Mathlib

/-
Verification of the DBF table codec in scripts/dbf_polars_handler.py.

Bytes are modelled as `Nat` (values 0..255 where the code produces them),
byte strings and Python text strings as `List Nat` of codepoints (all text
in this module derives from ASCII or latin-1 decoding, so codepoints and
bytes coincide).  Python exceptions are modelled with `Except PyExc`.
Python floats are modelled exactly as rationals (plus inf/nan markers);
no claim below depends on binary floating-point rounding.
-/

namespace DBF

/-- Python exception kinds relevant to the handler. -/
inductive PyExc where
  | valueError
  | overflowError
  | typeError
  | unicodeDecodeError
deriving DecidableEq, Repr

/-- Codepoints stripped by Python `str.strip()` / tolerated by `int()`:
tab, LF, VT, FF, CR, FS..US, space, NEL (0x85), NBSP (0xA0). -/
def pyIsSpace (c : Nat) : Bool :=
  decide (c = 9 ∨ c = 10 ∨ c = 11 ∨ c = 12 ∨ c = 13 ∨ (28 ≤ c ∧ c ≤ 31) ∨
          c = 32 ∨ c = 133 ∨ c = 160)

/-- Python `str.strip()`: drop leading and trailing whitespace. -/
def pyStrip (s : List Nat) : List Nat :=
  ((s.dropWhile pyIsSpace).reverse.dropWhile pyIsSpace).reverse

/-- Python `bytes.rstrip(b"\x00")`: drop trailing zero bytes. -/
def rstripNulls (s : List Nat) : List Nat :=
  (s.reverse.dropWhile (· == 0)).reverse

/-- Python `str.isprintable()` restricted to codepoints < 256
(all strings here come from ASCII/latin-1 decoding). -/
def pyIsPrintable (c : Nat) : Bool :=
  decide ((32 ≤ c ∧ c ≤ 126) ∨ (161 ≤ c ∧ c ≤ 255 ∧ c ≠ 173))

/-- Python `str.isdigit()` restricted to codepoints < 256:
ASCII digits plus the latin-1 superscripts 0xB2, 0xB3, 0xB9. -/
def pyIsDigit (c : Nat) : Bool :=
  decide ((48 ≤ c ∧ c ≤ 57) ∨ c = 178 ∨ c = 179 ∨ c = 185)

/-- Python `str.upper()` on one codepoint < 256: ASCII and latin-1 letters
map down by 32, `ÿ` to `Ÿ`, `µ` to `Μ`.  (`ß`, which Python uppercases to
the two-character string `SS`, is kept unchanged; every use in the handler
only compares the result against single ASCII tags, where both
treatments agree.) -/
def pyCharUpper (c : Nat) : Nat :=
  if 97 ≤ c ∧ c ≤ 122 then c - 32
  else if 224 ≤ c ∧ c ≤ 254 ∧ c ≠ 247 then c - 32
  else if c = 255 then 376
  else if c = 181 then 924
  else c

/-- Python `str.upper()`, codepoint-wise (see `pyCharUpper`). -/
def pyUpperStr (s : List Nat) : List Nat := s.map pyCharUpper

/-- Python `str.ljust(n, "\x00")`: pad on the right with NULs to length `n`. -/
def ljustNull (s : List Nat) (n : Nat) : List Nat :=
  s ++ List.replicate (n - s.length) 0

/-- A run of `n` space characters. -/
def spaces (n : Nat) : List Nat := List.replicate n 32

/-- Right-justify in a field of width `L`, space fill (Python format `>`).
Wider content is emitted in full, not truncated. -/
def padLeftSpaces (L : Nat) (s : List Nat) : List Nat :=
  spaces (L - s.length) ++ s

/-- Left-justify in a field of width `L`, space fill (`str.ljust`). -/
def padRightSpaces (L : Nat) (s : List Nat) : List Nat :=
  s ++ spaces (L - s.length)

/-- Python `.encode("ascii", errors="replace")`: non-ASCII codepoints become `?`. -/
def asciiReplace (s : List Nat) : List Nat :=
  s.map (fun c => if c < 128 then c else 63)

/-- Little-endian 16-bit encoding (struct format `<H`); the handler never
range-checks, struct.pack would raise outside 0..65535, modelled by mod. -/
def u16le (n : Nat) : List Nat := [n % 256, n / 256 % 256]

/-- Little-endian 32-bit encoding (struct format `<L`), modelled by mod. -/
def u32le (n : Nat) : List Nat :=
  [n % 256, n / 256 % 256, n / 2 ^ 16 % 256, n / 2 ^ 24 % 256]

/-- Read a little-endian u16 at byte offset `i` (struct.unpack `<H`). -/
def u16leAt (bs : List Nat) (i : Nat) : Nat :=
  bs.getD i 0 + 256 * bs.getD (i + 1) 0

/-- Read a little-endian u32 at byte offset `i` (struct.unpack `<L`). -/
def u32leAt (bs : List Nat) (i : Nat) : Nat :=
  bs.getD i 0 + 256 * bs.getD (i + 1) 0 + 2 ^ 16 * bs.getD (i + 2) 0 +
    2 ^ 24 * bs.getD (i + 3) 0

/-- Decimal digit codepoints of a natural number, most significant first.
`fuel` only bounds recursion depth; `natDigits` supplies enough. -/
def natDigitsAux : Nat → Nat → List Nat
  | 0, _ => []
  | fuel + 1, y => if y < 10 then [48 + y]
                   else natDigitsAux fuel (y / 10) ++ [48 + y % 10]

/-- Decimal digit codepoints of a natural number (Python `str(n)` for n ≥ 0). -/
def natDigits (y : Nat) : List Nat := natDigitsAux (y + 1) y

/-- Python `str(n)` for an int: optional minus sign followed by digits. -/
def intStr (n : Int) : List Nat :=
  if n < 0 then 45 :: natDigits (-n).toNat else natDigits n.toNat

/-- Zero-pad to two digits (strftime `%m` / `%d`). -/
def pad2 (x : Nat) : List Nat :=
  if x < 10 then [48, 48 + x] else natDigits x

/-- Zero-pad to four digits (`date.isoformat` year field). -/
def pad4 (x : Nat) : List Nat :=
  List.replicate (4 - (natDigits x).length) 48 ++ natDigits x

/-- Value of a decimal digit codepoint. -/
def digitVal (c : Nat) : Option Nat :=
  if 48 ≤ c ∧ c ≤ 57 then some (c - 48) else none

/-- Continue a digit run: digits with single underscores between groups
(the grammar of Python `int()` / `float()` literals since 3.6). -/
def pyDigitsAux : List Nat → Nat → Option Nat
  | [], acc => some acc
  | c :: rest, acc =>
    if c = 95 then
      match rest with
      | [] => none
      | d :: rest2 =>
        match digitVal d with
        | some v => pyDigitsAux rest2 (acc * 10 + v)
        | none => none
    else
      match digitVal c with
      | some v => pyDigitsAux rest (acc * 10 + v)
      | none => none

/-- A nonempty digit run (underscore grouping allowed), fully consumed. -/
def pyDigitsNat (s : List Nat) : Option Nat :=
  match s with
  | [] => none
  | c :: rest =>
    match digitVal c with
    | some v => pyDigitsAux rest v
    | none => none

/-- Python `int(str)`: surrounding whitespace, optional sign, digit run. -/
def pyIntOfStr (s : List Nat) : Option Int :=
  match pyStrip s with
  | [] => none
  | 43 :: r => (pyDigitsNat r).map (fun n => (n : Int))
  | 45 :: r => (pyDigitsNat r).map (fun n => -(n : Int))
  | t => (pyDigitsNat t).map (fun n => (n : Int))

/-- A Python float value: exact rational, infinities, or nan.
Binary rounding of doubles is not modelled; no claim depends on it. -/
inductive PyFloat where
  | num (q : ℚ)
  | posInf
  | negInf
  | nanV
deriving DecidableEq, Repr

/-- A digit-run chunk with value and digit count (underscores allowed
between digits, as in Python numeric literals); empty chunk is (0, 0). -/
def pyChunkValAux : List Nat → Nat → Nat → Option (Nat × Nat)
  | [], acc, cnt => some (acc, cnt)
  | c :: rest, acc, cnt =>
    if c = 95 then
      match rest with
      | [] => none
      | d :: rest2 =>
        match digitVal d with
        | some v => pyChunkValAux rest2 (acc * 10 + v) (cnt + 1)
        | none => none
    else
      match digitVal c with
      | some v => pyChunkValAux rest (acc * 10 + v) (cnt + 1)
      | none => none

/-- Validate and evaluate a digit chunk (may be empty; `_` cannot lead). -/
def pyChunkVal (s : List Nat) : Option (Nat × Nat) :=
  match s with
  | [] => some (0, 0)
  | 95 :: _ => none
  | _ => pyChunkValAux s 0 0

/-- Split off the maximal digit/underscore prefix. -/
def digitRunSplit (s : List Nat) : List Nat × List Nat :=
  (s.takeWhile (fun c => pyIsDigit c && decide (c < 128) || c == 95),
   s.dropWhile (fun c => pyIsDigit c && decide (c < 128) || c == 95))

/-- Parse the body of a Python float literal after sign removal:
`digits [. digits] [(e|E) [sign] digits]` with at least one mantissa digit,
fully consumed.  Returns the exact rational value. -/
def pyFloatBody (s : List Nat) : Option ℚ :=
  let (ip, rest1) := digitRunSplit s
  match pyChunkVal ip with
  | none => none
  | some (iv, ic) =>
    let (fv, fc, rest2) :=
      match rest1 with
      | 46 :: r =>
        let (fp, r2) := digitRunSplit r
        match pyChunkVal fp with
        | none => (none, 0, r2)
        | some (v, c) => (some v, c, r2)
      | _ => (some 0, 0, rest1)
    match fv with
    | none => none
    | some fval =>
      if ic + fc = 0 then none
      else
        let mant : ℚ := (iv : ℚ) + (fval : ℚ) / (10 : ℚ) ^ fc
        match rest2 with
        | [] => some mant
        | 101 :: r | 69 :: r =>
          let (sgn, r2) : Bool × List Nat :=
            match r with
            | 43 :: r2 => (false, r2)
            | 45 :: r2 => (true, r2)
            | _ => (false, r)
          match r2 with
          | [] => none
          | 95 :: _ => none
          | _ =>
            match pyChunkValAux r2 0 0 with
            | none => none
            | some (ev, ec) =>
              if ec = 0 then none
              else some (mant * (10 : ℚ) ^ (if sgn then -(ev : ℤ) else (ev : ℤ)))
        | _ => none

/-- Python `float(str)`: whitespace, sign, then a numeric body or one of
the case-insensitive special words inf / infinity / nan. -/
def pyFloatOfStr (s : List Nat) : Option PyFloat :=
  let t := pyStrip s
  let (neg, body) : Bool × List Nat :=
    match t with
    | 43 :: r => (false, r)
    | 45 :: r => (true, r)
    | _ => (false, t)
  let lower := body.map (fun c => if 65 ≤ c ∧ c ≤ 90 then c + 32 else c)
  if lower = [105, 110, 102] ∨ lower = [105, 110, 102, 105, 110, 105, 116, 121] then
    some (if neg then .negInf else .posInf)
  else if lower = [110, 97, 110] then some .nanV
  else
    match pyFloatBody body with
    | some q => some (.num (if neg then -q else q))
    | none => none

/-- Round a rational to an integer, ties to even (Python float formatting). -/
def roundHalfEven (q : ℚ) : ℤ :=
  let f := ⌊q⌋
  let r := q - (f : ℚ)
  if r > 1 / 2 then f + 1
  else if r < 1 / 2 then f
  else if f % 2 = 0 then f else f + 1

/-- Fixed-point rendering `"{:.Df}"` of a Python float (no width padding):
sign, integer digits, and `D` fractional digits (no point when `D = 0`). -/
def fixedStr (x : PyFloat) (D : Nat) : List Nat :=
  match x with
  | .posInf => [105, 110, 102]
  | .negInf => [45, 105, 110, 102]
  | .nanV => [110, 97, 110]
  | .num q =>
    let neg := q < 0
    let a : ℚ := |q|
    let scaled : Nat := (roundHalfEven (a * (10 : ℚ) ^ D)).toNat
    let ip := scaled / 10 ^ D
    let fp := scaled % 10 ^ D
    (if neg then [45] else []) ++ natDigits ip ++
      (if D = 0 then [] else
        [46] ++ List.replicate (D - (natDigits fp).length) 48 ++ natDigits fp)

/-- Smallest k ≤ 17 with den ∣ 10^k, if any. -/
def ratDecimalK (den : Nat) : Option Nat :=
  (List.range 18).find? (fun k => 10 ^ k % den == 0)

/-- Python `str(float)` (shortest-repr), modelled: exact decimal expansion
when the denominator divides a power of ten (with `.0` for integral
values, as Python prints), else a 17-digit fixed rendering. -/
def floatRepr (x : PyFloat) : List Nat :=
  match x with
  | .posInf => [105, 110, 102]
  | .negInf => [45, 105, 110, 102]
  | .nanV => [110, 97, 110]
  | .num q =>
    let neg := q < 0
    let a : ℚ := |q|
    (if neg then [45] else []) ++
      match ratDecimalK a.den with
      | some k =>
        if k = 0 then natDigits a.num.toNat ++ [46, 48]
        else
          let scaled := a.num.toNat * (10 ^ k / a.den)
          natDigits (scaled / 10 ^ k) ++ [46] ++
            List.replicate (k - (natDigits (scaled % 10 ^ k)).length) 48 ++
            natDigits (scaled % 10 ^ k)
      | none => fixedStr x 17

/-- A Python value as it appears in a DataFrame cell. -/
inductive PyValue where
  | vInt (n : Int)
  | vFloat (x : PyFloat)
  | vStr (s : List Nat)
  | vBool (b : Bool)
  | vDate (y m d : Nat)
deriving DecidableEq, Repr

/-- Python truthiness of a non-None value. -/
def pyTruthy : PyValue → Bool
  | .vBool b => b
  | .vInt n => decide (n ≠ 0)
  | .vStr s => decide (s ≠ [])
  | .vFloat (.num q) => decide (q ≠ 0)
  | .vFloat _ => true
  | .vDate _ _ _ => true

/-- Python `str(value)`: dates render as ISO `YYYY-MM-DD`. -/
def pyStrOfValue : PyValue → List Nat
  | .vStr s => s
  | .vInt n => intStr n
  | .vBool b => if b then [84, 114, 117, 101] else [70, 97, 108, 115, 101]
  | .vFloat x => floatRepr x
  | .vDate y m d => pad4 y ++ [45] ++ pad2 m ++ [45] ++ pad2 d

/-- Python `int(value)` on a non-None value.  `int()` of a date raises
TypeError; of nan ValueError; of an infinity OverflowError. -/
def pyIntOfValue : PyValue → Except PyExc Int
  | .vInt n => .ok n
  | .vBool b => .ok (if b then 1 else 0)
  | .vFloat (.num q) => .ok (q.num.tdiv (q.den : Int))
  | .vFloat .posInf => .error .overflowError
  | .vFloat .negInf => .error .overflowError
  | .vFloat .nanV => .error .valueError
  | .vStr s =>
    match pyIntOfStr s with
    | some n => .ok n
    | none => .error .valueError
  | .vDate _ _ _ => .error .typeError

/-- Python `float(value)` on a non-None value.  `float()` of a date raises
TypeError; an int beyond double range raises OverflowError (modelled with
the 10^309 bound). -/
def pyFloatOfValue : PyValue → Except PyExc PyFloat
  | .vFloat x => .ok x
  | .vInt n => if n.natAbs < 10 ^ 309 then .ok (.num (n : ℚ)) else .error .overflowError
  | .vBool b => .ok (.num (if b then 1 else 0))
  | .vStr s =>
    match pyFloatOfStr s with
    | some x => .ok x
    | none => .error .valueError
  | .vDate _ _ _ => .error .typeError

/-- Gregorian leap year. -/
def isLeap (y : Nat) : Bool :=
  (y % 4 == 0 && y % 100 != 0) || y % 400 == 0

/-- Days in a month (month 1..12; other inputs fall to the 31 default). -/
def daysInMonth (y m : Nat) : Nat :=
  if m = 2 then (if isLeap y then 29 else 28)
  else if m = 4 ∨ m = 6 ∨ m = 9 ∨ m = 11 then 30
  else 31

/-- Whether `datetime.date(y, m, d)` succeeds (MINYEAR 1, MAXYEAR 9999). -/
def validDate (y m d : Nat) : Bool :=
  decide (1 ≤ y ∧ y ≤ 9999 ∧ 1 ≤ m ∧ m ≤ 12 ∧ 1 ≤ d ∧ d ≤ daysInMonth y m)

/-- Whether `datetime.date(y, m, d)` succeeds, for int arguments. -/
def validDateI (y m d : Int) : Bool :=
  decide (1 ≤ y ∧ y ≤ 9999 ∧ 1 ≤ m ∧ m ≤ 12 ∧ 1 ≤ d ∧
          d ≤ (daysInMonth y.toNat m.toNat : Int))

/-- One column's schema, mirroring class DBFFieldDescriptor: the stored
`name` is the constructor's `name[:10].ljust(11, "\x00")`, and
`field_type` the uppercased type tag's codepoint. -/
structure DBFFieldDescriptor where
  name : List Nat
  field_type : Nat
  length : Nat
  decimal_count : Nat
deriving DecidableEq, Repr

/-- Mirrors `DBFFieldDescriptor.__init__`: truncate the name to 10 characters,
NUL-pad to 11, uppercase the type tag. -/
def descMk (name : List Nat) (field_type : Nat) (length decimal_count : Nat) :
    DBFFieldDescriptor :=
  ⟨ljustNull (name.take 10) 11, pyCharUpper field_type, length, decimal_count⟩

/-- Mirrors `DBFFieldDescriptor.to_bytes`: struct.pack("<11sBBBB15sB", name,
ord(type), length, decimal_count, 0, 15 zero bytes, 0).  `B` fields are
range-checked by struct.pack; values here are in range (modelled mod 256). -/
def DBFFieldDescriptor.to_bytes (f : DBFFieldDescriptor) : List Nat :=
  (f.name.take 11 ++ List.replicate (11 - f.name.length) 0) ++
    [f.field_type % 256, f.length % 256, f.decimal_count % 256, 0] ++
    List.replicate 15 0 ++ [0]

/-- Mirrors `DBFFieldDescriptor.from_bytes`: requires 32 bytes (ValueError below
that); name = bytes 0-10 NUL-rstripped, ASCII-decoded (UnicodeDecodeError
on a byte ≥ 128); type tag = byte 11; length = byte 16; decimal count =
byte 17; rebuilt through the constructor. -/
def DBFFieldDescriptor.from_bytes (data : List Nat) :
    Except PyExc DBFFieldDescriptor :=
  if data.length < 32 then .error .valueError
  else
    let nb := rstripNulls (data.take 11)
    if nb.any (fun b => decide (128 ≤ b)) then .error .unicodeDecodeError
    else .ok (descMk nb (data.getD 11 0) (data.getD 16 0) (data.getD 17 0))

/-- One decoded row: field name (NUL-rstripped) to converted value,
in descriptor order (the Python dict keyed by those names). -/
abbrev Row := List (List Nat × Option PyValue)

/-- Python `dict.get(key)`: the stored value, or None when the key is absent. -/
def rowGet (row : Row) (k : List Nat) : Option PyValue :=
  match row.find? (fun p => p.1 == k) with
  | some p => p.2
  | none => none

/-- The date parse both converters perform on 8-character content: the
slices [0:4], [4:6], [6:8] through Python `int()` (whitespace- and
sign-tolerant), then `datetime.date`; any ValueError yields None. -/
def dateOfSlices (s : List Nat) : Option PyValue :=
  match pyIntOfStr (s.take 4), pyIntOfStr ((s.drop 4).take 2),
        pyIntOfStr (s.drop 6) with
  | some y, some m, some d =>
    if validDateI y m d then some (.vDate y.toNat m.toNat d.toNat) else none
  | _, _, _ => none

/-- Mirrors `DBFReader._convert_field_value`: decode the raw bytes (ASCII with
latin-1 fallback: both map byte b to codepoint b, so the composite is the
identity), strip, then convert by type tag.  Empty content is absent for
every type.  N/F parse failures RAISE ValueError (nothing catches them
here); only the D branch guards its parse with try/except. -/
def convert_field_value (data : List Nat) (field_type : Nat) (decimal_count : Nat) :
    Except PyExc (Option PyValue) :=
  let s := pyStrip data
  if s = [] then .ok none
  else if field_type = 67 then .ok (some (.vStr s))
  else if field_type = 78 then
    if 0 < decimal_count then
      match pyFloatOfStr s with
      | some x => .ok (some (.vFloat x))
      | none => .error .valueError
    else
      match pyIntOfStr s with
      | some n => .ok (some (.vInt n))
      | none => .error .valueError
  else if field_type = 70 then
    match pyFloatOfStr s with
    | some x => .ok (some (.vFloat x))
    | none => .error .valueError
  else if field_type = 76 then
    .ok (some (.vBool (pyUpperStr s == [84] || pyUpperStr s == [89] ||
                       pyUpperStr s == [49])))
  else if field_type = 68 then
    if s.length = 8 then .ok (dateOfSlices s) else .ok none
  else if field_type = 77 then .ok (some (.vStr s))
  else .ok (some (.vStr s))

/-- Mirrors the `DBFReader._parse_record` field walk over the record bytes (deletion
flag already stripped): slice `length` bytes per field at a running
offset and convert; conversion errors propagate. -/
def parse_record_aux (record_data : List Nat) :
    List DBFFieldDescriptor → Nat → Except PyExc Row
  | [], _ => .ok []
  | f :: fs, off => do
    let v ← convert_field_value ((record_data.drop off).take f.length)
              f.field_type f.decimal_count
    let rest ← parse_record_aux record_data fs (off + f.length)
    pure ((rstripNulls f.name, v) :: rest)

/-- Mirrors `DBFReader._parse_record`. -/
def parse_record (fields : List DBFFieldDescriptor) (record_data : List Nat) :
    Except PyExc Row :=
  parse_record_aux record_data fields 0

/-- Mirrors `DBFReader._read_records`: up to `n` sequential reads of
`record_length` bytes from the remaining stream; a short read stops
without error; a record whose first byte is `'*'` (42) is skipped;
other records are parsed (conversion errors propagate). -/
def read_records_loop (fields : List DBFFieldDescriptor) (record_length : Nat) :
    Nat → List Nat → Except PyExc (List Row)
  | 0, _ => .ok []
  | n + 1, bs =>
    if (bs.take record_length).length < record_length then .ok []
    else if (bs.take record_length).take 1 = [42] then
      read_records_loop fields record_length n (bs.drop record_length)
    else do
      let r ← parse_record fields ((bs.take record_length).drop 1)
      let rest ← read_records_loop fields record_length n (bs.drop record_length)
      pure (r :: rest)

/-- Parsed DBF header fields (`DBFReader._read_header`). -/
structure DBFHeaderInfo where
  version : Nat
  num_records : Nat
  header_length : Nat
  record_length : Nat
deriving DecidableEq, Repr

/-- Mirrors `DBFReader._read_header`: 32 bytes required (ValueError below that);
byte 0 version, bytes 1-3 the last-update date (year offset from 1900,
validated through datetime.date — an invalid month or day byte makes the
whole header raise ValueError), bytes 4-7 record count (u32le), bytes 8-9
header length (u16le), bytes 10-11 record length (u16le). -/
def read_header (bs : List Nat) : Except PyExc DBFHeaderInfo :=
  let hd := bs.take 32
  if hd.length < 32 then .error .valueError
  else if ¬ validDate (1900 + hd.getD 1 0) (hd.getD 2 0) (hd.getD 3 0) then
    .error .valueError
  else .ok ⟨hd.getD 0 0, u32leAt hd 4, u16leAt hd 8, u16leAt hd 10⟩

/-- The descriptor-reading loop of `DBFReader._read_field_descriptors`:
up to `n` 32-byte reads starting at `pos`.  An empty read breaks; a short
read is zero-padded to 32 before decoding; a chunk starting with the 0x0D
terminator rewinds the stream to just after that byte (seek(-31, 1)) and
breaks; a chunk `from_bytes` rejects is skipped.  Returns the fields and
the stream position after the loop. -/
def read_desc_loop (bs : List Nat) :
    Nat → Nat → List DBFFieldDescriptor → List DBFFieldDescriptor × Nat
  | 0, pos, acc => (acc.reverse, pos)
  | n + 1, pos, acc =>
    let chunk := (bs.drop pos).take 32
    if chunk.length = 0 then (acc.reverse, pos)
    else
      let pos2 := pos + chunk.length
      let chunk32 := chunk ++ List.replicate (32 - chunk.length) 0
      if chunk32.headD 0 = 13 then (acc.reverse, pos2 - 31)
      else
        match DBFFieldDescriptor.from_bytes chunk32 with
        | .ok f => read_desc_loop bs n pos2 (f :: acc)
        | .error _ => read_desc_loop bs n pos2 acc

/-- The terminator scan after the descriptor loop: up to 100 single-byte
reads looking for 0x0D; stops at EOF.  Returns the position just after
the terminator when found. -/
def search_terminator (bs : List Nat) : Nat → Nat → Option Nat
  | _, 0 => none
  | pos, fuel + 1 =>
    match (bs.drop pos).head? with
    | none => none
    | some b => if b = 13 then some (pos + 1)
                else search_terminator bs (pos + 1) fuel

/-- Mirrors `DBFReader._read_field_descriptors`: header_length below 33 raises
ValueError; num_fields = (header_length - 33) / 32; run the descriptor
loop from position 32, then scan for the terminator; if the scan fails,
reposition to the theoretical offset 32 + 32*len(fields) + 1. -/
def read_field_descriptors (bs : List Nat) (header_length : Nat) :
    Except PyExc (List DBFFieldDescriptor × Nat) :=
  if header_length < 33 then .error .valueError
  else
    let num_fields := (header_length - 33) / 32
    let (fields, pos1) := read_desc_loop bs num_fields 32 []
    match search_terminator bs pos1 100 with
    | some p => .ok (fields, p)
    | none => .ok (fields, 32 + 32 * fields.length + 1)

/-- Mirrors `DBFReader.read` over in-memory bytes (CDX handling and the Polars
DataFrame assembly aside): header, field descriptors, then records.
The result pairs the field list with the retained rows. -/
def DBFReader.read (bs : List Nat) :
    Except PyExc (List DBFFieldDescriptor × List Row) := do
  let h ← read_header bs
  let (fields, pos) ← read_field_descriptors bs h.header_length
  let rows ← read_records_loop fields h.record_length h.num_records (bs.drop pos)
  pure (fields, rows)

/-- Mirrors `DBFWriter._format_field_value`: format one cell.  None blank-fills to
the declared length for every type.  C/memo/default: str(value) truncated
to length, space-padded, ASCII-encoded with replacement.  N: int or
fixed-point formatting right-justified to at least length (wider content
overflows); ValueError/OverflowError from the numeric conversion degrade
to blanks, but TypeError (e.g. a date value) propagates.  F: like N with
decimals.  L: a single 'T'/'F' byte from truthiness, ignoring length.
D: strftime("%Y%m%d") for date values (%Y unpadded below year 1000, as
glibc prints), blanks otherwise. -/
def format_field_value (value : Option PyValue) (f : DBFFieldDescriptor) :
    Except PyExc (List Nat) :=
  match value with
  | none => .ok (spaces f.length)
  | some v =>
    if f.field_type = 67 then
      .ok (asciiReplace (padRightSpaces f.length ((pyStrOfValue v).take f.length)))
    else if f.field_type = 78 then
      if 0 < f.decimal_count then
        match pyFloatOfValue v with
        | .ok x => .ok (padLeftSpaces f.length (fixedStr x f.decimal_count))
        | .error .typeError => .error .typeError
        | .error _ => .ok (spaces f.length)
      else
        match pyIntOfValue v with
        | .ok i => .ok (padLeftSpaces f.length (intStr i))
        | .error .typeError => .error .typeError
        | .error _ => .ok (spaces f.length)
    else if f.field_type = 70 then
      match pyFloatOfValue v with
      | .ok x => .ok (padLeftSpaces f.length (fixedStr x f.decimal_count))
      | .error .typeError => .error .typeError
      | .error _ => .ok (spaces f.length)
    else if f.field_type = 76 then
      .ok (if pyTruthy v then [84] else [70])
    else if f.field_type = 68 then
      match v with
      | .vDate y m d => .ok (natDigits y ++ pad2 m ++ pad2 d)
      | _ => .ok (spaces f.length)
    else
      .ok (asciiReplace (padRightSpaces f.length ((pyStrOfValue v).take f.length)))

/-- The `record_length = 1 + sum(field.length ...)` value computed in
`DBFWriter.write` (the +1 is the deletion flag). -/
def recordLengthOf (fields : List DBFFieldDescriptor) : Nat :=
  1 + (fields.map (·.length)).sum

/-- Mirrors `DBFWriter._write_records`: per row a space deletion flag then each
field's formatted value, looked up in the row dict by the NUL-rstripped
field name; a single 0x1A end-of-file marker after the last record. -/
def write_records (fields : List DBFFieldDescriptor) (rows : List Row) :
    Except PyExc (List Nat) := do
  let recs ← rows.mapM (fun row => do
    let cells ← fields.mapM
      (fun f => format_field_value (rowGet row (rstripNulls f.name)) f)
    pure ((32 : Nat) :: cells.flatten))
  pure (recs.flatten ++ [26])

/-- Mirrors `DBFWriter._write_header`: struct.pack("<BBBBLHHHHHHHHHHH", 0x03,
year-1900, month, day, num_records, header_length, record_length, then
nine zero u16s).  That format is 4+4+2*11 = 30 bytes: the reserved block
holds 18 zero bytes, not the 20 the 32-byte layout calls for.
header_length is computed as 32 + 32*num_fields + 1. -/
def write_header (y m d num_records num_fields record_length : Nat) : List Nat :=
  [3, (y - 1900) % 256, m % 256, d % 256] ++ u32le num_records ++
    u16le (32 + num_fields * 32 + 1) ++ u16le record_length ++
    List.replicate 18 0

/-- One descriptor as `DBFWriter._write_field_descriptors` packs it:
struct.pack("<11sB4sBBB13sB", name[:10].ljust(11), ord(type), 4-byte
address, length, decimal_count, 0, 13 zero bytes, 0).  That format is
11+1+4+1+1+1+13+1 = 33 bytes, one more than the 32-byte layout. -/
def field_descriptor_bytes (f : DBFFieldDescriptor) : List Nat :=
  ljustNull (f.name.take 10) 11 ++ [f.field_type % 256] ++ [0, 0, 0, 0] ++
    [f.length % 256, f.decimal_count % 256, 0] ++ List.replicate 13 0 ++ [0]

/-- Mirrors `DBFWriter._write_field_descriptors`: each descriptor's bytes then the
0x0D terminator. -/
def write_field_descriptors (fields : List DBFFieldDescriptor) : List Nat :=
  (fields.map field_descriptor_bytes).flatten ++ [13]

/-- Mirrors `DBFWriter.write` over in-memory bytes, for fields already built by
`_create_field_descriptors` (i.e. through the descriptor constructor):
an empty frame raises ValueError; otherwise header ++ descriptors ++
records.  `y m d` is the current date written into the header. -/
def DBFWriter.write (y m d : Nat) (fields : List DBFFieldDescriptor)
    (rows : List Row) : Except PyExc (List Nat) :=
  if rows = [] then .error .valueError
  else do
    let recs ← write_records fields rows
    pure (write_header y m d rows.length fields.length (recordLengthOf fields) ++
          write_field_descriptors fields ++ recs)

/-- Mirrors `convert_field_value_safe`: ASCII decode with errors="ignore" (bytes
≥ 128 dropped), strip; every conversion is inside a bare try/except, so
all failures yield None.  The D branch additionally requires all eight
characters to satisfy isdigit. -/
def convert_field_value_safe (data : List Nat) (field_type : Nat)
    (decimal_count : Nat) : Option PyValue :=
  let s := pyStrip (data.filter (fun b => decide (b < 128)))
  if s = [] then none
  else if field_type = 67 then some (.vStr s)
  else if field_type = 78 then
    if 0 < decimal_count then (pyFloatOfStr s).map .vFloat
    else (pyIntOfStr s).map .vInt
  else if field_type = 70 then (pyFloatOfStr s).map .vFloat
  else if field_type = 76 then
    some (.vBool (pyUpperStr s == [84] || pyUpperStr s == [89] ||
                  pyUpperStr s == [49]))
  else if field_type = 68 then
    if s.length = 8 ∧ s.all pyIsDigit then dateOfSlices s else none
  else some (.vStr s)

/-- The per-record field walk of `read_dbf_alternative`: offset starts at
1 (past the deletion flag); a field extending beyond the record bytes
breaks out of the field loop, keeping the fields parsed so far.  Record
keys are `field.name.strip()` — whitespace strip, which leaves the NUL
padding of the stored name in place. -/
def parse_record_safe_aux (chunk : List Nat) :
    List DBFFieldDescriptor → Nat → Row
  | [], _ => []
  | f :: fs, off =>
    if chunk.length < off + f.length then []
    else
      (pyStrip f.name,
       convert_field_value_safe ((chunk.drop off).take f.length)
         f.field_type f.decimal_count) ::
        parse_record_safe_aux chunk fs (off + f.length)

/-- Mirrors the `read_dbf_alternative` record walk: reads whole `record_length`-byte
chunks (short read stops), skips records flagged `'*'`, and keeps a parsed
record only when it is nonempty. -/
def recover_records_loop (fields : List DBFFieldDescriptor)
    (record_length : Nat) : Nat → List Nat → List Row
  | 0, _ => []
  | n + 1, bs =>
    let chunk := bs.take record_length
    if chunk.length < record_length then []
    else
      let rest := recover_records_loop fields record_length n
                    (bs.drop record_length)
      if chunk.take 1 = [42] then rest
      else
        let row := parse_record_safe_aux chunk fields 1
        if row = [] then rest else row :: rest

/-- The descriptor walk of `read_dbf_alternative`: 32-byte chunks from
offset 32 while the position stays below header_length - 1; stops at a
short chunk, a 0x0D first byte, or a name that is empty or not printable
after NUL-rstrip and ASCII-ignore decoding.  `fuel` only bounds the
recursion and is always at least the possible iteration count when
called with `fuel = header_length` (the position starts at 32 and grows
by 32 per step while below header_length - 1). -/
def recover_fields_loop (bs : List Nat) (header_length : Nat) :
    Nat → Nat → List DBFFieldDescriptor → List DBFFieldDescriptor
  | 0, _, acc => acc.reverse
  | fuel + 1, pos, acc =>
    if pos + 1 < header_length then
      let chunk := (bs.drop pos).take 32
      if chunk.length < 32 then acc.reverse
      else if chunk.headD 0 = 13 then acc.reverse
      else
        let nameS := (rstripNulls (chunk.take 11)).filter (fun b => decide (b < 128))
        if nameS = [] ∨ ¬ nameS.all pyIsPrintable then acc.reverse
        else
          recover_fields_loop bs header_length fuel (pos + 32)
            (descMk nameS (chunk.getD 11 0) (chunk.getD 16 0) (chunk.getD 17 0)
              :: acc)
    else acc.reverse

/-- Mirrors `read_dbf_alternative`: the fallback parser.  A file below 32 bytes
raises ValueError; header fields are read at the same offsets as the
primary reader (no date validation); descriptors are recovered
best-effort; ZERO recovered fields raise ValueError ("No valid field
descriptors found"); records are read from offset header_length, capped
at 1000; zero recovered records yield an empty table. -/
def read_dbf_alternative (bs : List Nat) :
    Except PyExc (List DBFFieldDescriptor × List Row) :=
  if bs.length < 32 then .error .valueError
  else if recover_fields_loop bs (u16leAt bs 8) (u16leAt bs 8) 32 [] = [] then
    .error .valueError
  else
    .ok (recover_fields_loop bs (u16leAt bs 8) (u16leAt bs 8) 32 [],
      recover_records_loop
        (recover_fields_loop bs (u16leAt bs 8) (u16leAt bs 8) 32 [])
        (u16leAt bs 10) (min (u32leAt bs 4) 1000) (bs.drop (u16leAt bs 8)))

/-- Decidable equality of `Except` results, for evaluating the model. -/
instance instDecEqExcept {ε α : Type} [DecidableEq ε] [DecidableEq α] :
    DecidableEq (Except ε α)
  | .ok a, .ok b =>
    match decEq a b with
    | isTrue h => isTrue (by rw [h])
    | isFalse h => isFalse (fun hc => h (Except.ok.inj hc))
  | .ok _, .error _ => isFalse (fun hc => Except.noConfusion hc)
  | .error _, .ok _ => isFalse (fun hc => Except.noConfusion hc)
  | .error e, .error e2 =>
    match decEq e e2 with
    | isTrue h => isTrue (by rw [h])
    | isFalse h => isFalse (fun hc => h (Except.error.inj hc))

/-- Shortcut instance keeping later instance searches shallow. -/
instance instDecEqTable : DecidableEq (List DBFFieldDescriptor × List Row) :=
  inferInstance

/-- The name bytes "ID". -/
def strID : List Nat := [73, 68]

/-- A one-column table: field ID, numeric, width 10, no decimals. -/
def sampleFields : List DBFFieldDescriptor := [descMk strID 78 10 0]

/-- One row with ID = 1. -/
def sampleRows : List Row := [[(strID, some (PyValue.vInt 1))]]

/-- A 33-byte file: valid 32-byte header with header_length = 33 (no room
for any field descriptor), followed by the 0x0D terminator. -/
def zeroFieldsFile : List Nat :=
  [3, 0, 0, 0, 0, 0, 0, 0, 33, 0, 1, 0] ++ List.replicate 20 0 ++ [13]

/-- A 65-byte file: header with header_length 65, record_length 11, zero
records; one valid descriptor (ID, N, 10, 0); terminator. -/
def oneFieldFile : List Nat :=
  [3, 0, 0, 0, 0, 0, 0, 0, 65, 0, 11, 0] ++ List.replicate 20 0 ++
    (strID ++ List.replicate 9 0 ++ [78] ++ [0, 0, 0, 0] ++ [10, 0] ++
      List.replicate 14 0) ++ [13]

/-- C1: the claimed round-trip `TableReader.read(TableWriter.write(T)) == T`
(modulo declared narrowing) fails: the writer emits a 30-byte header and
33-byte field descriptors, so reading back a one-column table
(ID numeric(10), single row with value 1) yields a garbled single field
(name "\x00...\x00N", type NUL, length 0) whose only value is None —
nothing survives, let alone up to narrowing.  The code contradicts its own
comments ("DBF header structure (32 bytes)", "Write field descriptor
(32 bytes)") and its reader. -/
theorem roundtrip_bug :
    (DBFWriter.write 2026 10 12 sampleFields sampleRows).bind DBFReader.read =
      .ok ([⟨[0, 0, 0, 0, 0, 0, 0, 0, 0, 78, 0], 0, 0, 0⟩],
           [[([0, 0, 0, 0, 0, 0, 0, 0, 0, 78], none)]]) ∧
    (DBFWriter.write 2026 10 12 sampleFields sampleRows).bind DBFReader.read ≠
      .ok (sampleFields, sampleRows) := by decide

/-- C2: the writer's header does place record_count at bytes 4-7 (u32le),
header_length at bytes 8-9 and record_length at bytes 10-11 (u16le), and
each descriptor places length at byte 16 and decimal_count at byte 17
followed by the 0x0D terminator — but the header is packed to 30 bytes
(format "<BBBBLHHHHHHHHHHH") and each descriptor to 33 bytes
(format "<11sB4sBBB13sB"), not the documented 32, so the emitted file
does not conform to the 32-byte-header / 32-byte-descriptor layout. -/
theorem on_disk_layout_bug :
    (write_header 2026 10 12 1 1 11).length = 30 ∧
    u32leAt (write_header 2026 10 12 1 1 11) 4 = 1 ∧
    u16leAt (write_header 2026 10 12 1 1 11) 8 = 65 ∧
    u16leAt (write_header 2026 10 12 1 1 11) 10 = 11 ∧
    (field_descriptor_bytes (descMk strID 78 10 0)).length = 33 ∧
    (field_descriptor_bytes (descMk strID 78 10 0)).getD 16 999 = 10 ∧
    (field_descriptor_bytes (descMk strID 78 10 0)).getD 17 999 = 0 ∧
    write_field_descriptors [descMk strID 78 10 0] =
      field_descriptor_bytes (descMk strID 78 10 0) ++ [13] := by decide

/-- C3: `decode(encode(d)) == d` fails for every descriptor: `to_bytes`
packs "<11sBBBB15sB" = 31 bytes with length at byte 12 and decimal_count
at byte 13, while `from_bytes` (documenting the 32-byte layout) demands
32 bytes with length at byte 16 — so decoding an encoded descriptor
raises ValueError.  Shown at d = (ID, N, 10, 0). -/
theorem schema_reencode_bug :
    ((descMk strID 78 10 0).to_bytes).length = 31 ∧
    ((descMk strID 78 10 0).to_bytes).getD 12 999 = 10 ∧
    ((descMk strID 78 10 0).to_bytes).getD 13 999 = 0 ∧
    DBFFieldDescriptor.from_bytes ((descMk strID 78 10 0).to_bytes) =
      .error .valueError := by decide

/-- C4 counterexample: converting the bytes "abc" in an N field with
decimal_count 0 raises ValueError (`int("abc")` is not guarded), so
conversion in the primary reader does not "never raise". -/
theorem convert_numeric_raises :
    convert_field_value [97, 98, 99] 78 0 = .error .valueError := by decide

/-- C5 counterexample: formatting the numeric value 12345 into an N field
of declared length 3 emits the full five bytes "12345" (Python width
formatting never truncates), not a blank-filled field of 3 spaces. -/
theorem format_numeric_overflow :
    format_field_value (some (.vInt 12345)) (descMk [65] 78 3 0) =
      .ok [49, 50, 51, 52, 53] ∧
    format_field_value (some (.vInt 12345)) (descMk [65] 78 3 0) ≠
      .ok (spaces 3) := by decide

/-- C6 counterexample: a file from which zero field descriptors are
recoverable makes `read_dbf_alternative` raise ValueError ("No valid
field descriptors found") instead of returning an empty table. -/
theorem recovery_zero_fields_raises :
    read_dbf_alternative zeroFieldsFile = .error .valueError := by decide

/-- C7 counterexample: the D-field bytes "2024 1 1" are not eight digits,
yet the primary converter parses the slices with Python's whitespace-
tolerant `int()` and returns the date 2024-01-01 rather than the absent
value. -/
theorem date_nondigit_accepted :
    convert_field_value [50, 48, 50, 52, 32, 49, 32, 49] 68 0 =
      .ok (some (.vDate 2024 1 1)) ∧
    convert_field_value [50, 48, 50, 52, 32, 49, 32, 49] 68 0 ≠
      .ok none := by decide

/-- C4 (amended): in the primary reader, converting a field value never
raises for C, L, D and M fields — failures there degrade to the absent
value — and blank content yields the absent value for every field type;
but non-numeric non-empty content in an N or F field raises ValueError
(see `convert_numeric_raises`), aborting the parse so that the caller
falls back to the recovery reader. -/
theorem convert_value_error_policy (data : List Nat)
    (field_type decimal_count : Nat) :
    ((field_type = 67 ∨ field_type = 76 ∨ field_type = 68 ∨ field_type = 77) →
      ∃ v, convert_field_value data field_type decimal_count = .ok v) ∧
    (pyStrip data = [] →
      convert_field_value data field_type decimal_count = .ok none) := by
  constructor
  · rintro (rfl | rfl | rfl | rfl) <;>
      (unfold convert_field_value; norm_num; repeat' split) <;>
      exact ⟨_, rfl⟩
  · intro hs
    unfold convert_field_value
    simp [hs]

/-- Witness for `convert_value_error_policy`: an L field converts without
raising, and a blank N field converts to the absent value. -/
theorem convert_value_error_policy_witness :
    (∃ v, convert_field_value [88] 76 0 = .ok v) ∧
    convert_field_value [32, 32] 78 0 = .ok none :=
  ⟨(convert_value_error_policy [88] 76 0).1 (Or.inr (Or.inl rfl)),
   (convert_value_error_policy [32, 32] 78 0).2 (by decide)⟩

/-- C5 (amended): formatting an N field, for any decimal_count: a string
value that does not parse as a number is written as exactly `length`
spaces without raising; a numeric value is right-justified to at least
`length` bytes (Python width formatting is a minimum, so a representation
wider than `length` is emitted in full, overflowing the field — see
`format_numeric_overflow` — not blank-filled); and formatting raises only
for values outside the numeric-convertible types: a date value in an
N field raises an uncaught TypeError (the except clause catches only
ValueError and OverflowError). -/
theorem format_numeric_policy (name : List Nat) (L D : Nat) (n : Int)
    (s : List Nat) (y m d : Nat) :
    (∀ t : List Nat, (padLeftSpaces L t).length = max L t.length) ∧
    (format_field_value (some (.vInt n)) (descMk name 78 L 0) =
      .ok (padLeftSpaces L (intStr n))) ∧
    (n.natAbs < 10 ^ 309 →
      format_field_value (some (.vInt n)) (descMk name 78 L (D + 1)) =
        .ok (padLeftSpaces L (fixedStr (.num (n : ℚ)) (D + 1)))) ∧
    (pyIntOfStr s = none →
      format_field_value (some (.vStr s)) (descMk name 78 L 0) =
        .ok (spaces L)) ∧
    (pyFloatOfStr s = none →
      format_field_value (some (.vStr s)) (descMk name 78 L (D + 1)) =
        .ok (spaces L)) ∧
    (format_field_value (some (.vDate y m d)) (descMk name 78 L 0) =
      .error .typeError) ∧
    (format_field_value (some (.vDate y m d)) (descMk name 78 L (D + 1)) =
      .error .typeError) := by
  have h78 : pyCharUpper 78 = 78 := by decide
  refine ⟨?_, ?_, ?_, ?_, ?_, ?_, ?_⟩
  · intro t
    simp [padLeftSpaces, spaces]
    omega
  · simp [descMk, h78, format_field_value, pyIntOfValue]
  · intro hn
    simp [descMk, h78, format_field_value, pyFloatOfValue, hn]
  · intro h
    simp [descMk, h78, format_field_value, pyIntOfValue, h]
  · intro h
    simp [descMk, h78, format_field_value, pyFloatOfValue, h]
  · simp [descMk, h78, format_field_value, pyIntOfValue]
  · simp [descMk, h78, format_field_value, pyFloatOfValue]

/-- Witness for `format_numeric_policy`: the non-numeric string "x"
blank-fills an N(4,0) and an N(4,3) field; 12345 in an N(3,2) field
formats at its full fixed-point width; a date value in an N(4,0) field
raises TypeError. -/
theorem format_numeric_policy_witness :
    format_field_value (some (.vStr [120])) (descMk [65] 78 4 0) =
      .ok (spaces 4) ∧
    format_field_value (some (.vStr [120])) (descMk [65] 78 4 3) =
      .ok (spaces 4) ∧
    format_field_value (some (.vInt 12345)) (descMk [65] 78 3 2) =
      .ok (padLeftSpaces 3 (fixedStr (.num ((12345 : Int) : ℚ)) 2)) ∧
    format_field_value (some (.vDate 2024 1 5)) (descMk [65] 78 4 0) =
      .error .typeError :=
  ⟨(format_numeric_policy [65] 4 1 0 [120] 2024 1 5).2.2.2.1 (by decide),
   (format_numeric_policy [65] 4 2 0 [120] 2024 1 5).2.2.2.2.1 (by decide),
   (format_numeric_policy [65] 3 1 12345 [120] 2024 1 5).2.2.1 (by decide),
   (format_numeric_policy [65] 4 1 0 [120] 2024 1 5).2.2.2.2.2.1⟩

/-- C6 (amended): in the fallback parser, only *record*-recovery failure
surfaces as emptiness: with at least one recovered field and zero
recovered records the result is an empty table, but zero recoverable
fields raise ValueError (see `recovery_zero_fields_raises`), as does a
file shorter than 32 bytes. -/
theorem recovery_emptiness_policy (bs : List Nat) (h : 32 ≤ bs.length) :
    (recover_fields_loop bs (u16leAt bs 8) (u16leAt bs 8) 32 [] = [] →
      read_dbf_alternative bs = .error .valueError) ∧
    (∀ fs, fs = recover_fields_loop bs (u16leAt bs 8) (u16leAt bs 8) 32 [] →
      fs ≠ [] →
      recover_records_loop fs (u16leAt bs 10) (min (u32leAt bs 4) 1000)
        (bs.drop (u16leAt bs 8)) = [] →
      read_dbf_alternative bs = .ok (fs, [])) := by
  have hlt : ¬ bs.length < 32 := by omega
  constructor
  · intro h1
    unfold read_dbf_alternative
    simp [hlt, h1]
  · intro fs hfs hne hrec
    unfold read_dbf_alternative
    rw [if_neg hlt, ← hfs, if_neg hne, hrec]


/-- Witness for `recovery_emptiness_policy`: a file with one valid
descriptor and zero records yields the empty table, not an error. -/
theorem recovery_emptiness_policy_witness :
    read_dbf_alternative oneFieldFile = .ok ([descMk strID 78 10 0], []) :=
  (recovery_emptiness_policy oneFieldFile (by decide)).2
    [descMk strID 78 10 0] (by decide) (by decide) (by decide)

/-- A date accepted by `validDateI` is calendar-valid after `toNat`. -/
lemma validDateI_toNat {y m d : Int} (h : validDateI y m d = true) :
    validDate y.toNat m.toNat d.toNat = true := by
  simp only [validDateI, decide_eq_true_eq] at h
  simp only [validDate, decide_eq_true_eq]
  omega

/-- The D-branch of the primary converter, by literal dispatch. -/
lemma convert_field_value_D (data : List Nat) (dec : Nat) :
    convert_field_value data 68 dec =
      (if pyStrip data = [] then .ok none
       else if (pyStrip data).length = 8 then .ok (dateOfSlices (pyStrip data))
       else .ok none) := rfl

/-- The D-branch of the safe converter, by literal dispatch. -/
lemma convert_field_value_safe_D (data : List Nat) (dec : Nat) :
    convert_field_value_safe data 68 dec =
      (if pyStrip (data.filter (fun b => decide (b < 128))) = [] then none
       else if (pyStrip (data.filter (fun b => decide (b < 128)))).length = 8 ∧
               (pyStrip (data.filter (fun b => decide (b < 128)))).all pyIsDigit
            then dateOfSlices (pyStrip (data.filter (fun b => decide (b < 128))))
            else none) := rfl

/-- Slice parses that form an invalid calendar date give None. -/
lemma dateOfSlices_invalid {s : List Nat} {y m d : Int}
    (hy : pyIntOfStr (s.take 4) = some y)
    (hm : pyIntOfStr ((s.drop 4).take 2) = some m)
    (hd : pyIntOfStr (s.drop 6) = some d)
    (hv : validDateI y m d = false) : dateOfSlices s = none := by
  unfold dateOfSlices
  rw [hy, hm, hd]
  simp [hv]

/-- Any date produced by the slice parse is calendar-valid. -/
lemma dateOfSlices_sound {s : List Nat} {y m d : Nat}
    (h : dateOfSlices s = some (.vDate y m d)) : validDate y m d = true := by
  unfold dateOfSlices at h
  rcases h4 : pyIntOfStr (s.take 4) with _ | y0 <;> rw [h4] at h
  · simp at h
  rcases h5 : pyIntOfStr ((s.drop 4).take 2) with _ | m0 <;> rw [h5] at h
  · simp at h
  rcases h6 : pyIntOfStr (s.drop 6) with _ | d0 <;> rw [h6] at h
  · simp at h
  by_cases hval : validDateI y0 m0 d0 = true
  · simp only [hval, if_true, Option.some.injEq, PyValue.vDate.injEq] at h
    obtain ⟨h1, h2, h3⟩ := h
    rw [← h1, ← h2, ← h3]
    exact validDateI_toNat hval
  · simp [hval] at h

/-- C7 (amended): D-field conversion never raises; trimmed content whose
length is not exactly 8 yields the absent value; 8-character content
whose int()-parsed slices form an invalid calendar date (e.g.
"20240230") yields the absent value; any date the primary converter does
return is calendar-valid; and the recovery-path converter further
requires all eight characters to be digits.  However, 8-character content
need NOT be all digits: Python's int() tolerates whitespace and signs in
the slices (see `date_nondigit_accepted`). -/
theorem date_conversion_policy (data : List Nat) (dec : Nat) :
    (∃ v, convert_field_value data 68 dec = .ok v) ∧
    ((pyStrip data).length ≠ 8 → convert_field_value data 68 dec = .ok none) ∧
    (∀ y m d : Int,
      pyIntOfStr ((pyStrip data).take 4) = some y →
      pyIntOfStr (((pyStrip data).drop 4).take 2) = some m →
      pyIntOfStr ((pyStrip data).drop 6) = some d →
      validDateI y m d = false →
      convert_field_value data 68 dec = .ok none) ∧
    (∀ y m d : Nat,
      convert_field_value data 68 dec = .ok (some (.vDate y m d)) →
      validDate y m d = true) ∧
    (¬ ((pyStrip (data.filter (fun b => decide (b < 128)))).length = 8 ∧
        (pyStrip (data.filter (fun b => decide (b < 128)))).all pyIsDigit = true) →
      convert_field_value_safe data 68 dec = none) := by
  refine ⟨?_, ?_, ?_, ?_, ?_⟩
  · rw [convert_field_value_D data dec]
    repeat' split
    all_goals exact ⟨_, rfl⟩
  · intro h8
    by_cases h0 : pyStrip data = []
    · rw [convert_field_value_D data dec, if_pos h0]
    · rw [convert_field_value_D data dec, if_neg h0, if_neg h8]
  · intro y m d hy hm hd hv
    by_cases h0 : pyStrip data = []
    · rw [convert_field_value_D data dec, if_pos h0]
    by_cases h8 : (pyStrip data).length = 8
    · rw [convert_field_value_D data dec, if_neg h0, if_pos h8,
        dateOfSlices_invalid hy hm hd hv]
    · rw [convert_field_value_D data dec, if_neg h0, if_neg h8]
  · intro y m d h
    rw [convert_field_value_D data dec] at h
    by_cases h0 : pyStrip data = []
    · rw [if_pos h0] at h
      exact absurd h (by simp)
    rw [if_neg h0] at h
    by_cases h8 : (pyStrip data).length = 8
    · rw [if_pos h8] at h
      exact dateOfSlices_sound (Except.ok.inj h)
    · rw [if_neg h8] at h
      exact absurd h (by simp)
  · intro hn
    by_cases h0 : pyStrip (data.filter (fun b => decide (b < 128))) = []
    · rw [convert_field_value_safe_D data dec, if_pos h0]
    · rw [convert_field_value_safe_D data dec, if_neg h0,
        if_neg (fun hc => hn ⟨hc.1, hc.2⟩)]

/-- Witness for `date_conversion_policy`: "20240230" (invalid day) decodes
to the absent value in the primary converter; "123" (not 8 characters)
decodes to the absent value; the safe converter rejects "2024 1 1". -/
theorem date_conversion_policy_witness :
    convert_field_value [50, 48, 50, 52, 48, 50, 51, 48] 68 0 = .ok none ∧
    convert_field_value [49, 50, 51] 68 0 = .ok none ∧
    convert_field_value_safe [50, 48, 50, 52, 32, 49, 32, 49] 68 0 = none :=
  ⟨(date_conversion_policy [50, 48, 50, 52, 48, 50, 51, 48] 0).2.2.1 2024 2 30
     (by decide) (by decide) (by decide) (by decide),
   (date_conversion_policy [49, 50, 51] 0).2.1 (by decide),
   (date_conversion_policy [50, 48, 50, 52, 32, 49, 32, 49] 0).2.2.2.2
     (by decide)⟩

/-- The deletion filter of the record loops: keep a record iff its first
byte is not `'*'` (42). -/
def keepRecord (c : List Nat) : Bool := decide ¬(c.take 1 = [42])

/-- Reading a stream of whole `rl`-byte records followed by a short tail
(possibly empty) yields exactly the non-deleted records' parses in order:
the tail never contributes, deleted records are dropped before parsing,
and only the conversions of retained records can raise. -/
lemma read_records_loop_join (fields : List DBFFieldDescriptor) (rl : Nat)
    (_hrl : 0 < rl) :
    ∀ (chunks : List (List Nat)) (rest : List Nat) (n : Nat),
      (∀ c ∈ chunks, c.length = rl) → chunks.length ≤ n → rest.length < rl →
      read_records_loop fields rl n (chunks.flatten ++ rest) =
        (chunks.filter keepRecord).mapM
          (fun c => parse_record fields (c.drop 1)) := by
  intro chunks
  induction chunks with
  | nil =>
    intro rest n _ _ hrest
    cases n with
    | zero => rfl
    | succ k =>
      simp only [List.flatten_nil, List.nil_append, List.filter_nil]
      unfold read_records_loop
      rw [if_pos]
      · rfl
      · simp only [List.length_take]
        omega
  | cons c cs ih =>
    intro rest n hlen hn hrest
    cases n with
    | zero => simp at hn
    | succ k =>
      have hc : c.length = rl := hlen c (List.mem_cons_self c cs)
      have hflat : (c :: cs).flatten ++ rest = c ++ (cs.flatten ++ rest) := by
        simp
      have htake : (c ++ (cs.flatten ++ rest)).take rl = c := by
        rw [← hc]
        exact List.take_left c _
      have hdrop : (c ++ (cs.flatten ++ rest)).drop rl = cs.flatten ++ rest := by
        rw [← hc]
        exact List.drop_left c _
      have ihk := ih rest k (fun x hx => hlen x (List.mem_cons_of_mem c hx))
        (by simpa using hn) hrest
      unfold read_records_loop
      rw [hflat, htake, hdrop, if_neg (by omega : ¬ c.length < rl)]
      by_cases hdel : c.take 1 = [42]
      · rw [if_pos hdel, ihk]
        have : keepRecord c = false := by
          simp [keepRecord, hdel]
        rw [List.filter_cons_of_neg (by simp [this])]
      · rw [if_neg hdel]
        have : keepRecord c = true := by
          simp [keepRecord, hdel]
        rw [List.filter_cons_of_pos (by simp [this]), List.mapM_cons, ihk]

/-- C8: in `_read_records`, a record whose first byte is the deletion
marker `'*'` contributes no row, whatever its remaining bytes (it is
dropped before any conversion), and all other records are retained in
on-disk order: reading `n` whole records equals filtering out the
deleted ones and parsing the rest in sequence. -/
theorem deleted_records_never_surface (fields : List DBFFieldDescriptor)
    (rl : Nat) (chunks : List (List Nat)) (hrl : 0 < rl)
    (hlen : ∀ c ∈ chunks, c.length = rl) :
    read_records_loop fields rl chunks.length chunks.flatten =
      (chunks.filter keepRecord).mapM
        (fun c => parse_record fields (c.drop 1)) := by
  have h := read_records_loop_join fields rl hrl chunks [] chunks.length hlen
    le_rfl (by simpa using hrl)
  simpa using h

/-- Witness for `deleted_records_never_surface`: a deleted record "*c"
vanishes while the live record " A" survives into the one-row result. -/
theorem deleted_records_never_surface_witness :
    read_records_loop [descMk [65] 67 1 0] 2
        ([[42, 99], [32, 65]] : List (List Nat)).length
        ([[42, 99], [32, 65]] : List (List Nat)).flatten =
      .ok [[([65], some (.vStr [65]))]] := by
  rw [deleted_records_never_surface [descMk [65] 67 1 0] 2 [[42, 99], [32, 65]]
      (by decide) (by decide)]
  decide

/-- C9: a record stream truncated mid-record (final fragment shorter than
record_length) reads to exactly the same result as the stream of the
fully-present records alone — all prior records are returned and the
truncation point stops the loop without raising. -/
theorem truncated_tail_ignored (fields : List DBFFieldDescriptor)
    (rl num : Nat) (chunks : List (List Nat)) (frag : List Nat)
    (hrl : 0 < rl) (hlen : ∀ c ∈ chunks, c.length = rl)
    (hnum : chunks.length ≤ num) (hfrag : frag.length < rl) :
    read_records_loop fields rl num (chunks.flatten ++ frag) =
      read_records_loop fields rl chunks.length chunks.flatten := by
  rw [read_records_loop_join fields rl hrl chunks frag num hlen hnum hfrag]
  have h := read_records_loop_join fields rl hrl chunks [] chunks.length hlen
    le_rfl (by simpa using hrl)
  simpa using h.symm

/-- Witness for `truncated_tail_ignored`: one whole record followed by a
single stray byte, with the header promising five records. -/
theorem truncated_tail_ignored_witness :
    read_records_loop [descMk [65] 67 1 0] 2 5
        (([[32, 65]] : List (List Nat)).flatten ++ [32]) =
      read_records_loop [descMk [65] 67 1 0] 2
        ([[32, 65]] : List (List Nat)).length
        ([[32, 65]] : List (List Nat)).flatten :=
  truncated_tail_ignored [descMk [65] 67 1 0] 2 5 [[32, 65]] [32]
    (by decide) (by decide) (by decide) (by decide)

/-- One-digit unfolding of the digit renderer. -/
lemma natDigitsAux_small (fuel y : Nat) (h : y < 10) :
    natDigitsAux (fuel + 1) y = [48 + y] := by
  unfold natDigitsAux
  rw [if_pos h]

/-- Multi-digit unfolding of the digit renderer. -/
lemma natDigitsAux_step (fuel y : Nat) (h : 10 ≤ y) :
    natDigitsAux (fuel + 1) y = natDigitsAux fuel (y / 10) ++ [48 + y % 10] := by
  rw [show natDigitsAux (fuel + 1) y =
        (if y < 10 then [48 + y]
         else natDigitsAux fuel (y / 10) ++ [48 + y % 10]) from rfl,
    if_neg (by omega)]

/-- Rendering length of a one-digit number, any positive fuel. -/
lemma natDigitsAux_len_of_lt (fuel y : Nat) (h : y < 10) (hf : 0 < fuel) :
    (natDigitsAux fuel y).length = 1 := by
  obtain ⟨f, rfl⟩ : ∃ f, fuel = f + 1 := ⟨fuel - 1, by omega⟩
  rw [natDigitsAux_small f y h]
  rfl

/-- Rendering length recursion for numbers of two or more digits. -/
lemma natDigitsAux_len_step (fuel y : Nat) (h : 10 ≤ y) (hf : 0 < fuel) :
    (natDigitsAux fuel y).length =
      (natDigitsAux (fuel - 1) (y / 10)).length + 1 := by
  obtain ⟨f, rfl⟩ : ∃ f, fuel = f + 1 := ⟨fuel - 1, by omega⟩
  rw [natDigitsAux_step f y h]
  simp

/-- A number in 10..99 renders as two digit characters. -/
lemma natDigits_len2 (x : Nat) (h1 : 10 ≤ x) (h2 : x ≤ 99) :
    (natDigits x).length = 2 := by
  unfold natDigits
  rw [natDigitsAux_len_step (x + 1) x h1 (by omega)]
  rw [natDigitsAux_len_of_lt (x + 1 - 1) (x / 10) (by omega) (by omega)]

/-- A year in 1000..9999 renders as four digit characters. -/
lemma natDigits_len4 (y : Nat) (h1 : 1000 ≤ y) (h2 : y ≤ 9999) :
    (natDigits y).length = 4 := by
  unfold natDigits
  rw [natDigitsAux_len_step (y + 1) y (by omega) (by omega)]
  rw [natDigitsAux_len_step (y + 1 - 1) (y / 10) (by omega) (by omega)]
  rw [natDigitsAux_len_step (y + 1 - 1 - 1) (y / 10 / 10) (by omega) (by omega)]
  rw [natDigitsAux_len_of_lt (y + 1 - 1 - 1 - 1) (y / 10 / 10 / 10)
    (by omega) (by omega)]

/-- Two-digit zero-padding always yields two characters for x ≤ 99. -/
lemma pad2_len (x : Nat) (h : x ≤ 99) : (pad2 x).length = 2 := by
  by_cases h10 : x < 10
  · rw [pad2, if_pos h10]
    rfl
  · rw [pad2, if_neg h10]
    exact natDigits_len2 x (by omega) h

/-- The writer's L branch, by literal dispatch: one truthiness byte,
whatever the declared length. -/
lemma format_field_value_L (v : PyValue) (name : List Nat) (L dec : Nat) :
    format_field_value (some v) (descMk name 76 L dec) =
      .ok (if pyTruthy v then [84] else [70]) := rfl

/-- The writer's D branch on a date value, by literal dispatch:
strftime("%Y%m%d"), whatever the declared length. -/
lemma format_field_value_D_date (y m d : Nat) (name : List Nat) (L dec : Nat) :
    format_field_value (some (.vDate y m d)) (descMk name 68 L dec) =
      .ok (natDigits y ++ pad2 m ++ pad2 d) := rfl

/-- C10: formatting a non-absent logical value emits exactly the one byte
'T'/'F' and a date value exactly eight bytes (4-digit year), regardless
of the descriptor's declared length; hence a record only matches the
header's record_length = 1 + sum of declared lengths when logical fields
declare length 1 and date fields length 8 — concretely, an L field of
declared length 2 holding True produces a 2-byte record against a
declared record_length of 3. -/
theorem logical_and_date_widths (name : List Nat) (L dec : Nat) (b : Bool)
    (y m d : Nat) (hy1 : 1000 ≤ y) (hy2 : y ≤ 9999) (hm : m ≤ 12)
    (hd : d ≤ 31) :
    (format_field_value (some (.vBool b)) (descMk name 76 L dec) =
        .ok (if b then [84] else [70]) ∧
      ((if b then [84] else [70]) : List Nat).length = 1) ∧
    (format_field_value (some (.vDate y m d)) (descMk name 68 L dec) =
        .ok (natDigits y ++ pad2 m ++ pad2 d) ∧
      (natDigits y ++ pad2 m ++ pad2 d).length = 8) ∧
    (write_records [descMk [65, 67, 84, 73, 86, 69] 76 2 0]
        [[([65, 67, 84, 73, 86, 69], some (.vBool true))]] =
        .ok [32, 84, 26] ∧
      recordLengthOf [descMk [65, 67, 84, 73, 86, 69] 76 2 0] = 3) := by
  refine ⟨⟨?_, by cases b <;> rfl⟩, ⟨format_field_value_D_date y m d name L dec, ?_⟩,
    by decide⟩
  · rw [format_field_value_L (.vBool b) name L dec]
    cases b <;> rfl
  · simp only [List.length_append, natDigits_len4 y hy1 hy2,
      pad2_len m (by omega), pad2_len d (by omega)]

/-- Witness for `logical_and_date_widths` at b = True, 2024-01-05, with a
declared length of 9 on both fields. -/
theorem logical_and_date_widths_witness :
    format_field_value (some (.vBool true)) (descMk [] 76 9 0) =
      .ok (if true then [84] else [70]) ∧
    (natDigits 2024 ++ pad2 1 ++ pad2 5).length = 8 :=
  ⟨(logical_and_date_widths [] 9 0 true 2024 1 5 (by decide) (by decide)
      (by decide) (by decide)).1.1,
   (logical_and_date_widths [] 9 0 true 2024 1 5 (by decide) (by decide)
      (by decide) (by decide)).2.1.2⟩

end DBF
